import Mathlib

/-!
Verification of the newsblur-cleaner triage pipeline.

The development is a shallow embedding of `src/newsblur_cleaner.py`: the
story data model, the title normalizer, the five purge rules, the per-feed
triage loop, the feed loop with its cross-feed dedup state, the final bulk
mark-as-read call, and the per-feed pagination loop. Python strings are
modelled as Lean `String` (with `str.lower` on the ASCII fragment), Python
sets as lists used only through membership, epoch timestamps as `Int`
seconds, and the external collaborators (the story source, the language
detector) as function parameters.
-/

/-- Punctuation test used by `string.punctuation` in `Story.NormalizeTitle`
(line 197): membership of the 32 ASCII punctuation characters, i.e. the
codepoint ranges 33-47, 58-64, 91-96 and 123-126. -/
def isPunct (c : Char) : Bool :=
  (33 ≤ c.toNat && c.toNat ≤ 47) || (58 ≤ c.toNat && c.toNat ≤ 64) ||
    (91 ≤ c.toNat && c.toNat ≤ 96) || (123 ≤ c.toNat && c.toNat ≤ 126)

/-- Python's `str.lower` on one character, restricted to the ASCII fragment
the titles of interest use: an upper-case ASCII letter is shifted down by 32
codepoints, every other character is kept unchanged. -/
def lowerChar (c : Char) : Char :=
  if 65 ≤ c.toNat && c.toNat ≤ 90 then Char.ofNat (c.toNat + 32) else c

/-- Python's `str.lower` applied to a whole string (line 196). -/
def lowerString (s : String) : String := ⟨s.data.map lowerChar⟩

/-- Python's `norm_title.translate(str.maketrans("", "", string.punctuation))`
(line 197): delete every ASCII punctuation character. -/
def translateDeletePunct (s : String) : String := ⟨s.data.filter (fun c => !isPunct c)⟩

/-- The normalization transform of `Story.NormalizeTitle` (lines 195-198) on
an arbitrary string: lowercase, then delete ASCII punctuation. -/
def normString (s : String) : String := translateDeletePunct (lowerString s)

/-- One feed item as fetched: the `story_data` fields the cleaner reads
(lines 151-201), plus the mandatory `id` (line 155). A JSON field that is
absent is `none`. -/
structure Story where
  story_id : String
  story_title : Option String := none
  story_permalink : Option String := none
  story_timestamp : Option Int := none
  story_hash : Option String := none
  read_status : Option Int := none
deriving DecidableEq, Repr

namespace Story

/-- Property `title` (lines 174-176): `story_data.get("story_title",
self.story_id)`. -/
def title (st : Story) : String := st.story_title.getD st.story_id

/-- Property `permalink` (lines 170-172): `story_data.get("story_permalink",
None)`. -/
def permalink (st : Story) : Option String := st.story_permalink

/-- Property `unread` (lines 178-180): `not story_data.get("read_status", 0)`
(a missing or zero `read_status` means unread). -/
def unread (st : Story) : Bool := st.read_status.getD 0 == 0

/-- Property `timestamp` (lines 182-193): the `story_timestamp` field when
truthy (present and nonzero), otherwise `datetime.now()` at the moment the
property is evaluated, here the parameter `nowEval`; epoch seconds. -/
def timestamp (st : Story) (nowEval : Int) : Int :=
  match st.story_timestamp with
  | some t => if t = 0 then nowEval else t
  | none => nowEval

/-- Method `NormalizeTitle` (lines 195-198):
`self.title.lower().translate(delete string.punctuation)`. -/
def NormalizeTitle (st : Story) : String := normString st.title

/-- Method `GetLanguage` (lines 200-201): `langdetect.detect(self.title)`;
the detector is an external collaborator, supplied as a function. -/
def GetLanguage (st : Story) (detect : String → String) : String := detect st.title

end Story

/-- The run configuration parsed from the command line (lines 207-214):
`--deduplicate` is a boolean flag, `--max_days_old` and
`--max_stories_per_feed` are `int` or absent, `--language` accumulates an
allow-list. -/
structure Config where
  deduplicate : Bool := false
  max_days_old : Option Int := none
  max_stories_per_feed : Option Int := none
  languages : List String := []

/-- Lines 229-232: `cutoff = now - timedelta(days=ctx.max_days_old)`,
computed once per run, but only when `ctx.max_days_old` is truthy (present
and nonzero); epoch seconds, one day being 86400 seconds. -/
def cutoffFor (runNow : Int) (maxDaysOld : Option Int) : Option Int :=
  match maxDaysOld with
  | some d => if d ≠ 0 then some (runNow - d * 86400) else none
  | none => none

/-- Rule 1, duplicate title (lines 259-263): under `ctx.deduplicate`, purge
when `norm_title in titles_seen`. -/
def dupTitleMatches (dedup : Bool) (titlesSeen : List String) (st : Story) : Bool :=
  dedup && decide (st.NormalizeTitle ∈ titlesSeen)

/-- Rule 2, duplicate permalink (lines 265-268): under `ctx.deduplicate`,
purge when `story.permalink in permalinks_seen`; a story with no permalink
contributes the literal `none` value. -/
def dupPermalinkMatches (dedup : Bool) (permalinksSeen : List (Option String))
    (st : Story) : Bool :=
  dedup && decide (st.permalink ∈ permalinksSeen)

/-- Rule 3, age cutoff (lines 270-278): `ctx.max_days_old and
ctx.max_days_old > 0 and story.timestamp < cutoff`. The `cutoff = none`
branch is unreachable from `main`, which computes the cutoff exactly when
`max_days_old` is truthy; it is mapped to `false` to keep the model total. -/
def ageMatches (maxDaysOld : Option Int) (cutoff : Option Int) (tsv : Int) : Bool :=
  match maxDaysOld with
  | none => false
  | some d =>
    decide (d ≠ 0) && decide (0 < d) &&
      (match cutoff with
       | some c => decide (tsv < c)
       | none => false)

/-- Rule 4, per-feed cap (lines 280-288): `ctx.max_stories_per_feed and
ctx.max_stories_per_feed > 0 and story_num >= ctx.max_stories_per_feed`,
with `story_num` the 0-based index in the feed's story list. -/
def capMatches (maxStories : Option Int) (idx : Nat) : Bool :=
  match maxStories with
  | none => false
  | some m => decide (m ≠ 0) && decide (0 < m) && decide (m ≤ (idx : Int))

/-- Rule 5, language filter (lines 290-294): `languages and not
story.GetLanguage() in languages`. -/
def langMatches (languages : List String) (detect : String → String) (st : Story) : Bool :=
  !languages.isEmpty && !decide (st.GetLanguage detect ∈ languages)

/-- Identifier of the purge rule that fires for one story. -/
inductive RuleId where
  | dupTitle
  | dupPermalink
  | age
  | cap
  | lang
deriving DecidableEq, Repr

/-- The body of the per-story loop (lines 254-294): the chain of
`if ...: feed_stories_to_mark.append(story); continue` tests, in source
order, tagged with the rule whose `continue` fires; `none` means no rule
matched and the story is kept. -/
def storyDecision (cfg : Config) (detect : String → String) (nowEval : Int)
    (cutoff : Option Int) (titlesSeen : List String)
    (permalinksSeen : List (Option String)) (idx : Nat) (st : Story) : Option RuleId :=
  if dupTitleMatches cfg.deduplicate titlesSeen st then some .dupTitle
  else if dupPermalinkMatches cfg.deduplicate permalinksSeen st then some .dupPermalink
  else if ageMatches cfg.max_days_old cutoff (st.timestamp nowEval) then some .age
  else if capMatches cfg.max_stories_per_feed idx then some .cap
  else if langMatches cfg.languages detect st then some .lang
  else none

/-- The cross-feed dedup state `titles_seen` / `permalinks_seen` (lines
224-225); the Python sets are modelled as lists used only through
membership, with `add` as cons. -/
structure DedupState where
  titlesSeen : List String := []
  permalinksSeen : List (Option String) := []
deriving DecidableEq, Repr

/-- Lines 296-299: a kept story seeds the dedup sets with its normalized
title and its permalink, but only when `ctx.deduplicate` is set. -/
def keepStory (cfg : Config) (s : DedupState) (st : Story) : DedupState :=
  if cfg.deduplicate then
    { titlesSeen := st.NormalizeTitle :: s.titlesSeen,
      permalinksSeen := st.permalink :: s.permalinksSeen }
  else s

/-- The per-feed triage loop (lines 254-299): walk the feed's stories with
their 0-based index `story_num`, returning the final dedup state and the
per-feed purge list `feed_stories_to_mark` in arrival order. -/
def processStories (cfg : Config) (detect : String → String) (nowEval : Int)
    (cutoff : Option Int) :
    DedupState → Nat → List Story → DedupState × List Story
  | s, _, [] => (s, [])
  | s, idx, st :: rest =>
    match storyDecision cfg detect nowEval cutoff s.titlesSeen s.permalinksSeen idx st with
    | some _ =>
      let r := processStories cfg detect nowEval cutoff s (idx + 1) rest
      (r.1, st :: r.2)
    | none =>
      processStories cfg detect nowEval cutoff (keepStory cfg s st) (idx + 1) rest

/-- The feed loop (lines 237-305): triage each feed in order, threading the
dedup state across feeds and extending `all_stories_to_mark` by the
per-feed purge list when that list is non-empty (lines 302-305). -/
def processFeeds (cfg : Config) (detect : String → String) (nowEval : Int)
    (cutoff : Option Int) :
    DedupState → List (List Story) → DedupState × List Story
  | s, [] => (s, [])
  | s, f :: rest =>
    let r1 := processStories cfg detect nowEval cutoff s 0 f
    let r2 := processFeeds cfg detect nowEval cutoff r1.1 rest
    (r2.1, if r1.2.isEmpty then r2.2 else r1.2 ++ r2.2)

/-- Each feed's purge list, in feed order, with the dedup state threaded
exactly as `processFeeds` threads it. -/
def perFeedPurges (cfg : Config) (detect : String → String) (nowEval : Int)
    (cutoff : Option Int) :
    DedupState → List (List Story) → List (List Story)
  | _, [] => []
  | s, f :: rest =>
    let r1 := processStories cfg detect nowEval cutoff s 0 f
    r1.2 :: perFeedPurges cfg detect nowEval cutoff r1.1 rest

/-- `NewsBlurClient.MarkStoriesAsRead` (lines 106-108): the request payload
is `[story.hash for story in stories]`. -/
def MarkStoriesAsRead (stories : List Story) : List (Option String) :=
  stories.map (·.story_hash)

/-- The tail of `main` (lines 228-313): compute the cutoff once per run, run
every feed through the triage threading one dedup state, then issue a single
mark-as-read call when `all_stories_to_mark` is non-empty and none
otherwise (lines 307-313). The result lists the mark-as-read calls made,
each with its argument. -/
def mainMarkCalls (cfg : Config) (detect : String → String) (runNow nowEval : Int)
    (feeds : List (List Story)) : List (List Story) :=
  let cutoff := cutoffFor runNow cfg.max_days_old
  let r := processFeeds cfg detect nowEval cutoff ⟨[], []⟩ feeds
  if r.2.isEmpty then [] else [r.2]

/-- `Feed.GetStories` (lines 128-148): fetch one page of story records from
the source and, with `unread_only` (the default used by `main`), keep only
the unread ones; `fetchPage` is the external source giving the server's
response on each page number. -/
def GetStories (fetchPage : Nat → List Story) (unreadOnly : Bool) (page : Nat) :
    List Story :=
  let items := fetchPage page
  if unreadOnly then items.filter Story.unread else items

/-- The pagination loop of `main` (lines 248-251):
`while len(feed_stories) < feed.unread_count:
feed_stories.extend(feed.GetStories(page=page)); page += 1`, given `fuel`
iterations of budget. `some` is the loop's exit value; `none` means the
budget ran out with the loop guard still true, i.e. after `fuel` iterations
the loop is still running. -/
def fetchLoop (fetchPage : Nat → List Story) (unreadCount : Nat) :
    Nat → Nat → List Story → Option (List Story)
  | 0, _, acc => if acc.length < unreadCount then none else some acc
  | fuel + 1, page, acc =>
    if acc.length < unreadCount then
      fetchLoop fetchPage unreadCount fuel (page + 1) (acc ++ GetStories fetchPage true page)
    else some acc

/-- Spec side (section 4.2): each rule's matching predicate, by rule, with
its enablement condition folded in. -/
def ruleMatches (cfg : Config) (detect : String → String) (nowEval : Int)
    (cutoff : Option Int) (titlesSeen : List String)
    (permalinksSeen : List (Option String)) (idx : Nat) (st : Story) : RuleId → Bool
  | .dupTitle => dupTitleMatches cfg.deduplicate titlesSeen st
  | .dupPermalink => dupPermalinkMatches cfg.deduplicate permalinksSeen st
  | .age => ageMatches cfg.max_days_old cutoff (st.timestamp nowEval)
  | .cap => capMatches cfg.max_stories_per_feed idx
  | .lang => langMatches cfg.languages detect st

/-- Spec side (section 4.2): the rule evaluation order. -/
def ruleOrder : List RuleId := [.dupTitle, .dupPermalink, .age, .cap, .lang]

/-- Spec side (section 4.1), following the spec's words: lowercase the
title, then remove every character classified as ASCII punctuation, with no
other transformation; written as one pass to be compared with the source's
two-pass `normString`. -/
def normalizeTitleSpec (t : String) : String :=
  ⟨t.data.filterMap (fun c => if isPunct (lowerChar c) then none else some (lowerChar c))⟩

/-- Sample story A of the spec's dedup example (section 8). -/
def storyCatsA : Story := { story_id := "a", story_title := some "Cats" }

/-- Sample story B of the spec's dedup example (section 8). -/
def storyCatsB : Story := { story_id := "b", story_title := some "cats!" }

/-- A detector that answers "en" for every text. -/
def detectEnglish : String → String := fun _ => "en"

/-- A run configured with deduplication only. -/
def dedupOnly : Config := { deduplicate := true }

/-- A run configured with a per-feed cap of 2 stories only. -/
def capTwoConfig : Config := { max_stories_per_feed := some 2 }

/-- A story with no permalink field. -/
def noPermalinkStory : Story := { story_id := "p", story_title := some "Dogs" }

/-! ### Character-level helper lemmas -/

theorem toNat_ofNat_valid (n : Nat) (h : n < 55296) : (Char.ofNat n).toNat = n := by
  simp [Char.ofNat, Nat.isValidChar, h, Char.toNat, Char.ofNatAux, UInt32.toNat,
    BitVec.toNat_ofNatLt]

theorem lowerChar_toNat_of_upper (c : Char) (h1 : 65 ≤ c.toNat) (h2 : c.toNat ≤ 90) :
    (lowerChar c).toNat = c.toNat + 32 := by
  simp only [lowerChar]
  rw [if_pos (by simp [h1, h2])]
  rw [toNat_ofNat_valid]
  omega

theorem lowerChar_of_not_upper (c : Char) (h : ¬(65 ≤ c.toNat ∧ c.toNat ≤ 90)) :
    lowerChar c = c := by
  simp only [lowerChar]
  rw [if_neg (by simpa using h)]

theorem lowerChar_idem (c : Char) : lowerChar (lowerChar c) = lowerChar c := by
  by_cases h : 65 ≤ c.toNat ∧ c.toNat ≤ 90
  · apply lowerChar_of_not_upper
    rw [lowerChar_toNat_of_upper c h.1 h.2]
    omega
  · rw [lowerChar_of_not_upper c h, lowerChar_of_not_upper c h]

theorem isPunct_iff (c : Char) :
    isPunct c = true ↔
      (33 ≤ c.toNat ∧ c.toNat ≤ 47) ∨ (58 ≤ c.toNat ∧ c.toNat ≤ 64) ∨
        (91 ≤ c.toNat ∧ c.toNat ≤ 96) ∨ (123 ≤ c.toNat ∧ c.toNat ≤ 126) := by
  simp [isPunct, Bool.or_eq_true, Bool.and_eq_true, decide_eq_true_eq, or_assoc]

theorem isPunct_lowerChar (c : Char) : isPunct (lowerChar c) = isPunct c := by
  by_cases h : 65 ≤ c.toNat ∧ c.toNat ≤ 90
  · have h2 := lowerChar_toNat_of_upper c h.1 h.2
    rw [Bool.eq_iff_iff, isPunct_iff, isPunct_iff, h2]
    omega
  · rw [lowerChar_of_not_upper c h]

/-! ### Normalization helper lemmas -/

theorem normString_idem_aux (s : String) : normString (normString s) = normString s := by
  simp only [normString, translateDeletePunct, lowerString]
  congr 1
  induction s.data with
  | nil => simp
  | cons c cs ih =>
    by_cases hp : isPunct c
    · simp only [List.map_cons, List.filter_cons]
      rw [isPunct_lowerChar] at *
      simp [hp, ih]
    · simp only [List.map_cons, List.filter_cons]
      have hlp : isPunct (lowerChar c) = false := by rw [isPunct_lowerChar]; simpa using hp
      have hlpp : isPunct (lowerChar (lowerChar c)) = false := by
        rw [lowerChar_idem]; exact hlp
      simp [hlp, hlpp, lowerChar_idem, ih]

theorem normString_eq_spec_aux (t : String) : normString t = normalizeTitleSpec t := by
  simp only [normString, translateDeletePunct, lowerString, normalizeTitleSpec]
  congr 1
  induction t.data with
  | nil => simp
  | cons c cs ih =>
    by_cases hp : isPunct (lowerChar c) <;>
      simp [List.filter_cons, List.filterMap_cons, hp, ih]

/-! ### Triage helper lemmas -/

theorem ageMatches_cutoff_iff (runNow d tsv : Int) (hd : 0 < d) :
    ageMatches (some d) (cutoffFor runNow (some d)) tsv =
      decide (tsv < runNow - d * 86400) := by
  simp [ageMatches, cutoffFor, hd, hd.ne']

theorem processStories_purged_sublist (cfg : Config) (detect : String → String)
    (nowEval : Int) (cutoff : Option Int) :
    ∀ (stories : List Story) (s : DedupState) (idx : Nat),
      ((processStories cfg detect nowEval cutoff s idx stories).2).Sublist stories := by
  intro stories
  induction stories with
  | nil => intro s idx; simp [processStories]
  | cons st rest ih =>
    intro s idx
    simp only [processStories]
    cases hd : storyDecision cfg detect nowEval cutoff s.titlesSeen s.permalinksSeen idx st with
    | some r => exact (ih s (idx + 1)).cons₂ st
    | none => exact (ih (keepStory cfg s st) (idx + 1)).cons st

theorem processFeeds_purged_flatten (cfg : Config) (detect : String → String)
    (nowEval : Int) (cutoff : Option Int) :
    ∀ (feeds : List (List Story)) (s : DedupState),
      (processFeeds cfg detect nowEval cutoff s feeds).2 =
        (perFeedPurges cfg detect nowEval cutoff s feeds).flatten := by
  intro feeds
  induction feeds with
  | nil => intro s; simp [processFeeds, perFeedPurges]
  | cons f rest ih =>
    intro s
    simp only [processFeeds, perFeedPurges, List.flatten_cons]
    by_cases he :
        (processStories cfg detect nowEval cutoff s 0 f).2.isEmpty = true
    · rw [if_pos he]
      rw [List.isEmpty_iff] at he
      rw [he]
      simp [ih]
    · rw [if_neg he]
      rw [ih]

theorem processStories_state_grows (cfg : Config) (detect : String → String)
    (nowEval : Int) (cutoff : Option Int) :
    ∀ (stories : List Story) (s : DedupState) (idx : Nat),
      s.titlesSeen ⊆ (processStories cfg detect nowEval cutoff s idx stories).1.titlesSeen ∧
        s.permalinksSeen ⊆
          (processStories cfg detect nowEval cutoff s idx stories).1.permalinksSeen := by
  intro stories
  induction stories with
  | nil => intro s idx; simp [processStories]
  | cons st rest ih =>
    intro s idx
    simp only [processStories]
    cases hd : storyDecision cfg detect nowEval cutoff s.titlesSeen s.permalinksSeen idx st with
    | some r => exact ih s (idx + 1)
    | none =>
      have hsub := ih (keepStory cfg s st) (idx + 1)
      constructor
      · refine subset_trans ?_ hsub.1
        by_cases hc : cfg.deduplicate = true <;> simp [keepStory, hc, List.subset_cons_self]
      · refine subset_trans ?_ hsub.2
        by_cases hc : cfg.deduplicate = true <;> simp [keepStory, hc, List.subset_cons_self]

theorem processFeeds_purged_sublist (cfg : Config) (detect : String → String)
    (nowEval : Int) (cutoff : Option Int) :
    ∀ (feeds : List (List Story)) (s : DedupState),
      ((processFeeds cfg detect nowEval cutoff s feeds).2).Sublist feeds.flatten := by
  intro feeds
  induction feeds with
  | nil => intro s; simp [processFeeds]
  | cons f rest ih =>
    intro s
    simp only [processFeeds, List.flatten_cons]
    by_cases he :
        (processStories cfg detect nowEval cutoff s 0 f).2.isEmpty = true
    · rw [if_pos he]
      exact (ih _).trans (List.sublist_append_right f rest.flatten)
    · rw [if_neg he]
      exact (processStories_purged_sublist cfg detect nowEval cutoff f s 0).append (ih _)

/-! ### The claims -/

/-- Claim C1: the per-story purge decision is the ordered chain of
short-circuiting rules duplicate-title, duplicate-permalink, age cutoff,
per-feed cap, language filter, each with its enablement condition; the
first matching rule purges the story (`storyDecision` equals `find?` over
the spec's rule order), a story matching no rule is kept, and each story
enters the purge list at most once (the purge list is a sublist of the
feed's story list, so no double-counting). -/
theorem triage_first_matching_rule_decides :
    (∀ (cfg : Config) (detect : String → String) (nowEval : Int) (cutoff : Option Int)
       (ts : List String) (ps : List (Option String)) (idx : Nat) (st : Story),
       storyDecision cfg detect nowEval cutoff ts ps idx st =
         ruleOrder.find? (ruleMatches cfg detect nowEval cutoff ts ps idx st)) ∧
    (∀ (cfg : Config) (detect : String → String) (nowEval : Int) (cutoff : Option Int)
       (ts : List String) (ps : List (Option String)) (idx : Nat) (st : Story),
       storyDecision cfg detect nowEval cutoff ts ps idx st = none ↔
         ∀ r : RuleId, ruleMatches cfg detect nowEval cutoff ts ps idx st r = false) ∧
    (∀ (cfg : Config) (detect : String → String) (nowEval : Int) (cutoff : Option Int)
       (stories : List Story) (s : DedupState) (idx : Nat),
       ((processStories cfg detect nowEval cutoff s idx stories).2).Sublist stories) := by
  have hfind : ∀ (cfg : Config) (detect : String → String) (nowEval : Int)
      (cutoff : Option Int) (ts : List String) (ps : List (Option String))
      (idx : Nat) (st : Story),
      storyDecision cfg detect nowEval cutoff ts ps idx st =
        ruleOrder.find? (ruleMatches cfg detect nowEval cutoff ts ps idx st) := by
    intro cfg detect nowEval cutoff ts ps idx st
    cases h1 : dupTitleMatches cfg.deduplicate ts st <;>
      cases h2 : dupPermalinkMatches cfg.deduplicate ps st <;>
        cases h3 : ageMatches cfg.max_days_old cutoff (st.timestamp nowEval) <;>
          cases h4 : capMatches cfg.max_stories_per_feed idx <;>
            cases h5 : langMatches cfg.languages detect st <;>
              simp [storyDecision, ruleOrder, List.find?, ruleMatches, h1, h2, h3, h4, h5]
  refine ⟨hfind, ?_, ?_⟩
  · intro cfg detect nowEval cutoff ts ps idx st
    rw [hfind cfg detect nowEval cutoff ts ps idx st, List.find?_eq_none]
    constructor
    · intro h r
      have hr : r ∈ ruleOrder := by cases r <;> simp [ruleOrder]
      simpa using h r hr
    · intro h r _
      simp [h r]
  · intro cfg detect nowEval cutoff
    exact processStories_purged_sublist cfg detect nowEval cutoff

/-- Claim C2: a normalized title or permalink enters the dedup sets only
when its owning story is kept, after all rules pass: a purged story leaves
the dedup state untouched, a kept story's keys are inserted only once its
decision (taken on the pre-insertion state, so it cannot seed itself) is
`none`, the sets only grow, and on the stories titled "Cats" then "cats!"
with deduplication on, the first is kept and the second purged. -/
theorem dedup_state_seeded_only_by_kept_stories :
    (∀ (cfg : Config) (detect : String → String) (nowEval : Int) (cutoff : Option Int)
       (s : DedupState) (idx : Nat) (st : Story) (rest : List Story) (r : RuleId),
       storyDecision cfg detect nowEval cutoff s.titlesSeen s.permalinksSeen idx st = some r →
       processStories cfg detect nowEval cutoff s idx (st :: rest) =
         ((processStories cfg detect nowEval cutoff s (idx + 1) rest).1,
           st :: (processStories cfg detect nowEval cutoff s (idx + 1) rest).2)) ∧
    (∀ (cfg : Config) (detect : String → String) (nowEval : Int) (cutoff : Option Int)
       (s : DedupState) (idx : Nat) (st : Story) (rest : List Story),
       storyDecision cfg detect nowEval cutoff s.titlesSeen s.permalinksSeen idx st = none →
       processStories cfg detect nowEval cutoff s idx (st :: rest) =
         processStories cfg detect nowEval cutoff (keepStory cfg s st) (idx + 1) rest) ∧
    (∀ (cfg : Config) (s : DedupState) (st : Story), cfg.deduplicate = true →
       keepStory cfg s st =
         { titlesSeen := st.NormalizeTitle :: s.titlesSeen,
           permalinksSeen := st.permalink :: s.permalinksSeen }) ∧
    (∀ (cfg : Config) (detect : String → String) (nowEval : Int) (cutoff : Option Int)
       (stories : List Story) (s : DedupState) (idx : Nat),
       s.titlesSeen ⊆ (processStories cfg detect nowEval cutoff s idx stories).1.titlesSeen ∧
         s.permalinksSeen ⊆
           (processStories cfg detect nowEval cutoff s idx stories).1.permalinksSeen) ∧
    (processStories dedupOnly detectEnglish 0 none ⟨[], []⟩ 0 [storyCatsA, storyCatsB]).2 =
      [storyCatsB] := by
  refine ⟨?_, ?_, ?_, ?_, by decide⟩
  · intro cfg detect nowEval cutoff s idx st rest r h
    simp [processStories, h]
  · intro cfg detect nowEval cutoff s idx st rest h
    simp [processStories, h]
  · intro cfg s st h
    simp [keepStory, h]
  · intro cfg detect nowEval cutoff
    exact processStories_state_grows cfg detect nowEval cutoff

/-- Claim C3 (the code misses this guarantee): the pagination loop
`while len(feed_stories) < feed.unread_count` has no exhaustion check, so
on a source whose every page yields zero new stories while the reported
unread count is 1, the loop guard stays true after every number of
iterations: the loop never exits. -/
theorem pagination_loop_never_exits_on_exhausted_source :
    ∀ (fuel page : Nat), fetchLoop (fun _ => []) 1 fuel page [] = none := by
  intro fuel
  induction fuel with
  | zero => intro page; simp [fetchLoop]
  | succ n ih =>
    intro page
    simp only [fetchLoop, GetStories]
    simp
    exact ih (page + 1)

/-- Claim C4: with deduplication on, a missing permalink takes part in
permalink dedup as the literal "no permalink" value: once `none` is in
`permalinks_seen` (which keeping a permalink-less story puts there), any
later story lacking a permalink whose normalized title is not already in
`titles_seen` is purged by the duplicate-permalink rule. -/
theorem missing_permalink_acts_as_duplicate_value (cfg : Config)
    (detect : String → String) (nowEval : Int) (cutoff : Option Int)
    (ts : List String) (ps : List (Option String)) (idx : Nat) (st : Story)
    (s : DedupState)
    (hdedup : cfg.deduplicate = true) (hperm : st.story_permalink = none)
    (hseen : (none : Option String) ∈ ps) (hfresh : st.NormalizeTitle ∉ ts) :
    storyDecision cfg detect nowEval cutoff ts ps idx st = some RuleId.dupPermalink ∧
    (keepStory cfg s st).permalinksSeen = none :: s.permalinksSeen := by
  constructor
  · have h1 : dupTitleMatches cfg.deduplicate ts st = false := by
      simp [dupTitleMatches, hfresh]
    have h2 : dupPermalinkMatches cfg.deduplicate ps st = true := by
      simp [dupPermalinkMatches, hdedup, Story.permalink, hperm, hseen]
    simp [storyDecision, h1, h2]
  · simp [keepStory, hdedup, Story.permalink, hperm]

/-- Witness for claim C4 at a concrete input: with deduplication on, the
dedup state holding `none` among the seen permalinks, and a fresh-titled
story with no permalink, the duplicate-permalink rule fires; keeping such a
story from the empty state puts `none` into the seen permalinks. -/
theorem missing_permalink_duplicate_value_witness :
    storyDecision dedupOnly detectEnglish 0 none [] [none] 0 noPermalinkStory =
      some RuleId.dupPermalink ∧
    (keepStory dedupOnly ⟨[], []⟩ noPermalinkStory).permalinksSeen =
      none :: ([] : List (Option String)) :=
  missing_permalink_acts_as_duplicate_value dedupOnly detectEnglish 0 none [] [none] 0
    noPermalinkStory ⟨[], []⟩ (by decide) rfl (by decide) (by decide)

/-- Claim C5: the purge list accumulated by the feed loop is the
concatenation, in feed processing order, of the per-feed purge lists; the
run issues exactly one mark-as-read call carrying that concatenation when
it is non-empty and no call at all when it is empty; and the accumulated
list is a sublist of the stories of all feeds in order, so concatenation
introduces no duplicate. -/
theorem single_batched_mark_as_read_call :
    (∀ (cfg : Config) (detect : String → String) (nowEval : Int) (cutoff : Option Int)
       (feeds : List (List Story)) (s : DedupState),
       (processFeeds cfg detect nowEval cutoff s feeds).2 =
         (perFeedPurges cfg detect nowEval cutoff s feeds).flatten) ∧
    (∀ (cfg : Config) (detect : String → String) (runNow nowEval : Int)
       (feeds : List (List Story)),
       mainMarkCalls cfg detect runNow nowEval feeds =
         if ((perFeedPurges cfg detect nowEval (cutoffFor runNow cfg.max_days_old)
               ⟨[], []⟩ feeds).flatten).isEmpty
         then []
         else [(perFeedPurges cfg detect nowEval (cutoffFor runNow cfg.max_days_old)
               ⟨[], []⟩ feeds).flatten]) ∧
    (∀ (cfg : Config) (detect : String → String) (nowEval : Int) (cutoff : Option Int)
       (feeds : List (List Story)) (s : DedupState),
       ((processFeeds cfg detect nowEval cutoff s feeds).2).Sublist feeds.flatten) ∧
    mainMarkCalls dedupOnly detectEnglish 0 0 [] = [] := by
  refine ⟨?_, ?_, ?_, by decide⟩
  · intro cfg detect nowEval cutoff feeds s
    exact processFeeds_purged_flatten cfg detect nowEval cutoff feeds s
  · intro cfg detect runNow nowEval feeds
    simp only [mainMarkCalls]
    rw [processFeeds_purged_flatten]
  · intro cfg detect nowEval cutoff feeds s
    exact processFeeds_purged_sublist cfg detect nowEval cutoff feeds s

/-- Claim C6: title normalization equals lowercasing (with the title falling
back to the story id when absent) followed by removal of every ASCII
punctuation character and nothing else: `Story.NormalizeTitle` agrees with
the spec-worded single-pass `normalizeTitleSpec` on the resolved title, on
the story id fallback when the title is absent, and on every string; being
a Lean function it is pure, deterministic and total by construction. -/
theorem normalize_title_matches_spec_algorithm :
    (∀ st : Story, st.NormalizeTitle = normalizeTitleSpec st.title) ∧
    (∀ st : Story, st.story_title = none → st.NormalizeTitle = normalizeTitleSpec st.story_id) ∧
    (∀ t : String, normString t = normalizeTitleSpec t) := by
  refine ⟨?_, ?_, normString_eq_spec_aux⟩
  · intro st
    exact normString_eq_spec_aux st.title
  · intro st h
    have ht : st.title = st.story_id := by simp [Story.title, h]
    rw [Story.NormalizeTitle, ht]
    exact normString_eq_spec_aux st.story_id

/-- Claim C7: the normalization transform is idempotent on every string,
and is case- and punctuation-insensitive in the spec's sense:
normalizing "Hello, World!" and "hello world" gives the same key. -/
theorem normalize_title_idempotent_and_insensitive :
    (∀ s : String, normString (normString s) = normString s) ∧
    normString "Hello, World!" = normString "hello world" :=
  ⟨normString_idem_aux, by decide⟩

/-- Claim C8: with a positive `max_stories_per_feed = m`, the per-feed cap
rule matches a story exactly when its 0-based index is at least `m`; over a
three-story feed with `m = 2` and no other rule enabled, the stories at
indices 0 and 1 are kept and the one at index 2 is purged, whatever the
stories' contents. -/
theorem per_feed_cap_rule_zero_based_index :
    (∀ m : Int, 0 < m → ∀ idx : Nat, (capMatches (some m) idx = true ↔ m ≤ (idx : Int))) ∧
    (∀ (detect : String → String) (nowEval : Int) (s0 s1 s2 : Story),
       (processStories capTwoConfig detect nowEval none ⟨[], []⟩ 0 [s0, s1, s2]).2 =
         [s2]) := by
  constructor
  · intro m hm idx
    simp [capMatches, hm, hm.ne']
  · intro detect nowEval s0 s1 s2
    simp [processStories, storyDecision, dupTitleMatches, dupPermalinkMatches,
      ageMatches, capMatches, langMatches, keepStory, capTwoConfig]

/-- Claim C9: with a positive `max_days_old = d`, the run's cutoff is
computed as the run start minus `d` days, and the age rule matches a story
exactly when its timestamp is strictly before that cutoff. -/
theorem age_cutoff_rule_strictly_before_cutoff (runNow d tsv : Int) (hd : 0 < d) :
    cutoffFor runNow (some d) = some (runNow - d * 86400) ∧
    (ageMatches (some d) (cutoffFor runNow (some d)) tsv = true ↔
      tsv < runNow - d * 86400) := by
  constructor
  · simp [cutoffFor, hd.ne']
  · rw [ageMatches_cutoff_iff runNow d tsv hd]
    simp

/-- Witness for claim C9 at concrete values: `max_days_old = 7`, a run
start of 1000000000, and a story 10 days old. -/
theorem age_cutoff_rule_witness_values :
    cutoffFor 1000000000 (some 7) = some (1000000000 - 7 * 86400) ∧
    (ageMatches (some 7) (cutoffFor 1000000000 (some 7)) (1000000000 - 10 * 86400) = true ↔
      (1000000000 - 10 * 86400 : Int) < 1000000000 - 7 * 86400) :=
  age_cutoff_rule_strictly_before_cutoff 1000000000 7 (1000000000 - 10 * 86400) (by decide)

/-- Claim C10: a story whose `story_timestamp` field is absent or zero gets
the evaluation-time now as its timestamp, and since the cutoff is the run
start minus a positive number of days while evaluation happens no earlier
than the run start, the age rule never matches such a story. -/
theorem default_timestamp_never_purged_by_age (st : Story) (runNow nowEval d : Int)
    (hts : st.story_timestamp = none ∨ st.story_timestamp = some 0)
    (hd : 0 < d) (hnow : runNow ≤ nowEval) :
    ageMatches (some d) (cutoffFor runNow (some d)) (st.timestamp nowEval) = false := by
  have ht : st.timestamp nowEval = nowEval := by
    rcases hts with h | h <;> simp [Story.timestamp, h]
  rw [ht, ageMatches_cutoff_iff runNow d nowEval hd]
  simp only [decide_eq_false_iff_not, not_lt]
  omega

/-- Witness for claim C10 at concrete values: a story with no timestamp
field and a story with timestamp 0, a run start and evaluation time of 100,
and `max_days_old = 1`. -/
theorem default_timestamp_age_witness :
    ageMatches (some 1) (cutoffFor 100 (some 1))
        (Story.timestamp { story_id := "x" } 100) = false ∧
    ageMatches (some 1) (cutoffFor 100 (some 1))
        (Story.timestamp { story_id := "y", story_timestamp := some 0 } 100) = false :=
  ⟨default_timestamp_never_purged_by_age { story_id := "x" } 100 100 1
      (Or.inl rfl) (by decide) (by decide),
    default_timestamp_never_purged_by_age { story_id := "y", story_timestamp := some 0 }
      100 100 1 (Or.inr rfl) (by decide) (by decide)⟩
